import Mathlib

/-!
Verification of the background domain-resolution and state-reconciliation
process of the Nomee browser extension.

The background script keeps module-level mutable state
(`isExtensionEnabled`, `currentDomain`, `ethAddress`, `price`, `decimals`,
`currency`, `cachedBlacklistedDomains`) and reacts to tab events and to a
request/response message protocol.  The embedding below renders that state
as the structure `ExtSt` and each handler as a pure state-transition
function.  Platform effects are made explicit:

* the browser URL parser (`new URL(url).hostname`) is external; tab events
  therefore carry the parsed hostname as an `Option String` (`none` when the
  tab has no URL or the URL constructor throws);
* the network resolver (`resolveNameAddress`) catches all of its own errors
  and returns data or `null`; its outcome is passed in as `Option NameData`;
* `chrome.storage.sync` get/set operations may fail; the runs of the four
  storage-mutating message handlers take explicit `getOk`/`setOk` flags;
* badge updates (`chrome.action.setBadgeText`) for the active tab are
  modelled by the `badgeText` field (`""` = cleared);
* the popup / system-notification side effects and `console` logging have
  no bearing on any state or response and are elided.

JS strings are embedded as Lean `String`s; hostname character processing
(`toLowerCase`, `startsWith("www.")`, `substring(4)`) is done on `.data`
(the list of characters), matching JS per-character semantics for the ASCII
hostnames involved.
-/

namespace Nomee

/-- A value read back from `chrome.storage.sync`: JSON-ish, untyped in the
source (`result.extensionEnabled` has type `any`). -/
inductive JsVal where
  | bool (b : Bool)
  | str (s : String)
  | num (n : Int)
deriving DecidableEq, Repr

/-- One listing of the first token, as consumed by `extractPriceFromName`:
`listing?.price`, `listing?.currency?.decimals`, `listing?.currency?.symbol`
may each be `undefined`. -/
structure Listing where
  price : Option String
  decimals : Option Nat
  currency : Option String
deriving DecidableEq, Repr

/-- A token of the resolved name (`nameData.tokens[i]`). -/
structure NameToken where
  listings : List Listing
deriving DecidableEq, Repr

/-- The payload `data.data.name` returned by `resolveNameAddress`:
`claimedBy` may be `undefined` for an unclaimed name. -/
structure NameData where
  claimedBy : Option String
  tokens : List NameToken
deriving DecidableEq, Repr

/-- Result record of `extractPriceFromName`. -/
structure PriceInfo where
  price : Option String
  decimals : Option Nat
  currency : Option String
deriving DecidableEq, Repr

/-- Embedding of `extractPriceFromName`: first token's first listing, otherwise `null`. -/
def extractPriceFromName (nameData : NameData) : Option PriceInfo :=
  match nameData.tokens with
  | [] => none
  | token :: _ =>
    match token.listings with
    | [] => none
    | listing :: _ => some ⟨listing.price, listing.decimals, listing.currency⟩

/-- Result record of `parseCAIP10` (`namespace` is a Lean keyword, hence
`nsPart`).  In JS, `parts[i]` is `undefined` past the end, and
`parts[2] ?? null` makes the address `null` when missing. -/
structure CAIP10 where
  nsPart : Option String
  chainId : Option String
  address : Option String
deriving DecidableEq, Repr

/-- JS `input.split(":")` on the character list: split at every colon,
keeping empty segments; the empty string yields one empty segment. -/
def splitOnColon : List Char → List (List Char)
  | [] => [[]]
  | c :: rest =>
    if c = ':' then [] :: splitOnColon rest
    else
      match splitOnColon rest with
      | [] => [[c]]
      | seg :: segs => (c :: seg) :: segs

/-- Embedding of `parseCAIP10`: split the owner identifier on `":"` and take the three
leading segments (`parts[2] ?? null` makes a missing address `null`). -/
def parseCAIP10 (input : String) : CAIP10 :=
  let parts := (splitOnColon input.data).map String.mk
  { nsPart := parts.get? 0, chainId := parts.get? 1, address := parts.get? 2 }

/-- The test `hostname.startsWith("www.")` rendered on the character list. -/
def beginsWithWWW : List Char → Bool
  | 'w' :: 'w' :: 'w' :: '.' :: _ => true
  | _ => false

/-- Embedding of `extractDomain`: the argument is `new URL(tab.url).hostname`, `none`
when `tab.url` is absent or the URL constructor throws (the source's
`catch` returns `null`).  Lowercase, strip one leading `"www."`
(`substring(4)`), reject when there is no `"."` or fewer than 3
characters. -/
def extractDomain (urlHost : Option String) : Option String :=
  match urlHost with
  | none => none
  | some hn =>
    let hostname := hn.data.map Char.toLower
    let hostname := if beginsWithWWW hostname then hostname.drop 4 else hostname
    if !hostname.contains '.' || hostname.length < 3 then none
    else some (String.mk hostname)

/-- JS truthiness of the `ethAddress` variable: `undefined`/`null` and the
empty string are falsy. -/
def jsTruthy : Option String → Bool
  | none => false
  | some s => !s.isEmpty

/-- The module-level mutable state of the background script plus the active
tab's badge text (`""` = badge cleared). -/
structure ExtSt where
  isExtensionEnabled : Bool
  currentDomain : Option String
  ethAddress : Option String
  price : Option String
  decimals : Option Nat
  currency : Option String
  cachedBlacklistedDomains : List String
  badgeText : String
deriving DecidableEq, Repr

/-- Initial values of the module-level variables. -/
def initialState : ExtSt :=
  { isExtensionEnabled := true
    currentDomain := none
    ethAddress := none
    price := none
    decimals := none
    currency := none
    cachedBlacklistedDomains := []
    badgeText := "" }

/-- Sets `ethAddress`, `price`, `decimals`, `currency` to `undefined`. -/
def clearOwner (s : ExtSt) : ExtSt :=
  { s with ethAddress := none, price := none, decimals := none, currency := none }

/-- First phase of `handleTabUpdate`, up to the point where
`resolveNameAddress(domain)` is awaited: the guard on the enabled flag, the
domain-equality guard, the assignment to `currentDomain`, and the
blacklist / absent-domain branch (which clears the badge and the owner
fields).  Returns the new state together with the domain a resolution was
issued for (`none` when no resolution was started).  The
`shouldAutoOpenPopup` read only gates the popup side effect and is
elided. -/
def handleTabUpdateStart (s : ExtSt) (urlHost : Option String) :
    ExtSt × Option String :=
  if !s.isExtensionEnabled then (s, none)
  else
    let domain := extractDomain urlHost
    if domain = s.currentDomain then (s, none)
    else
      let s' := { s with currentDomain := domain }
      match domain with
      | some d =>
        if !s'.cachedBlacklistedDomains.contains d then (s', some d)
        else (clearOwner { s' with badgeText := "" }, none)
      | none => (clearOwner { s' with badgeText := "" }, none)

/-- Second phase of `handleTabUpdate`, from the completion of
`resolveNameAddress` on.  `d` is the captured local `domain` (used in the
source only inside the elided notification text) and `res` the resolver's
outcome.  `if (!nameData) return;` leaves the state untouched.  When
`claimedBy` is `undefined`, `parseCAIP10` throws (`.split` on `undefined`),
and the `catch` block clears the owner fields and the badge; that is the
only statement in the `try` block that can throw.  Otherwise the owner
fields are assigned and the badge set to `"●"` exactly when the extracted
address is truthy. -/
def handleTabUpdateFinish (s : ExtSt) (d : String) (res : Option NameData) :
    ExtSt :=
  match res with
  | none => s
  | some nameData =>
    match nameData.claimedBy with
    | none => clearOwner { s with badgeText := "" }
    | some cb =>
      let amount := extractPriceFromName nameData
      let s' := { s with
        ethAddress := (parseCAIP10 cb).address
        price := amount.bind (·.price)
        decimals := amount.bind (·.decimals)
        currency := amount.bind (·.currency) }
      if jsTruthy s'.ethAddress then { s' with badgeText := "●" }
      else { s' with badgeText := "" }

/-- Embedding of `handleTabUpdate` as one event run to completion with resolver outcome
`res`; the second component records whether `resolveNameAddress` was
called. -/
def handleTabUpdate (s : ExtSt) (urlHost : Option String)
    (res : Option NameData) : ExtSt × Bool :=
  match handleTabUpdateStart s urlHost with
  | (s', none) => (s', false)
  | (s', some d) => (handleTabUpdateFinish s' d res, true)

/-- Response of the `getStatus` message branch. -/
structure StatusResponse where
  enabled : Bool
  domain : Option String
  ethAddress : Option String
  price : Option String
  decimals : Option Nat
  currency : Option String
deriving DecidableEq, Repr

/-- The `getStatus` branch of the message listener: answered synchronously
from the in-memory state. -/
def getStatus (s : ExtSt) : StatusResponse :=
  { enabled := s.isExtensionEnabled
    domain := s.currentDomain
    ethAddress := s.ethAddress
    price := s.price
    decimals := s.decimals
    currency := s.currency }

/-- The `toggleExtension` branch: flip the flag (the storage write is
fire-and-forget), clear the active tab's badge when the new value is
disabled, clear the owner fields when it is enabled (the re-check of the
active tab is a subsequent `handleTabUpdate` event). -/
def toggleExtension (s : ExtSt) : ExtSt :=
  let s' := { s with isExtensionEnabled := !s.isExtensionEnabled }
  if !s'.isExtensionEnabled then { s' with badgeText := "" }
  else clearOwner s'

/-- The assignment `result.extensionEnabled !== false` in the `onInstalled` listener:
only a stored literal `false` disables monitoring. -/
def initEnabled : Option JsVal → Bool
  | some (JsVal.bool false) => false
  | _ => true

/-- Effect of a successful `addToBlacklist` on the stored domain list:
append unless already present. -/
def addToBlacklist (blacklistedDomains : List String) (domain : String) :
    List String :=
  if blacklistedDomains.contains domain then blacklistedDomains
  else blacklistedDomains ++ [domain]

/-- Effect of a successful `removeFromBlacklist` on the stored list. -/
def removeFromBlacklist (blacklistedDomains : List String) (domain : String) :
    List String :=
  blacklistedDomains.filter (fun d => d ≠ domain)

/-- One persisted recent-chat entry (`timestamp := Date.now()`). -/
structure RecentChat where
  domain : String
  ethAddress : String
  price : Option String
  decimals : Option Nat
  currency : Option String
  timestamp : Nat
deriving DecidableEq, Repr

/-- Effect of a successful `addToRecentChats` on the stored list: drop any
entry with the same domain, `unshift` the new entry, `slice(0, 10)`. -/
def addToRecentChats (recentChats : List RecentChat) (domain ethAddress : String)
    (price : Option String) (decimals : Option Nat) (currency : Option String)
    (now : Nat) : List RecentChat :=
  let rest := recentChats.filter (fun chat => chat.domain ≠ domain)
  (({ domain := domain, ethAddress := ethAddress, price := price,
      decimals := decimals, currency := currency, timestamp := now } :
      RecentChat) :: rest).take 10

/-- Effect of a successful `removeFromRecentChats` on the stored list. -/
def removeFromRecentChats (recentChats : List RecentChat) (domain : String) :
    List RecentChat :=
  recentChats.filter (fun chat => chat.domain ≠ domain)

/-- The persisted collections under `blacklistedDomains` / `recentChats`. -/
structure StoredState where
  blacklistedDomains : List String
  recentChats : List RecentChat
deriving DecidableEq, Repr

/-- The four storage-mutating message actions. -/
inductive MutationRequest where
  | addChat (domain ethAddress : String) (price : Option String)
      (decimals : Option Nat) (currency : Option String)
  | removeChat (domain : String)
  | addBlacklist (domain : String)
  | removeBlacklist (domain : String)
deriving DecidableEq, Repr

/-- What the listener sends back for a mutation action. -/
structure MutResponse where
  success : Bool
deriving DecidableEq, Repr

/-- The message listener starts the async mutation without awaiting it and
immediately calls `sendResponse({ success: true })` (and does not return
`true` to keep the channel open), so the response is `success: true` for
every mutation request, whatever the storage operations later do. -/
def mutationResponse (_req : MutationRequest) : MutResponse :=
  { success := true }

/-- Run of the async `addToBlacklist(domain)` handler.  `getOk` / `setOk`
say whether the `chrome.storage.sync` get / set succeed; a failing await
rejects the handler's promise (third component `true`) before any later
statement runs.  On success the cache is updated and, when the active tab's
extracted domain is the one just blacklisted, its badge and the owner
fields are cleared. -/
def addToBlacklistRun (stored : StoredState) (s : ExtSt) (domain : String)
    (getOk setOk : Bool) (activeTabHost : Option String) :
    StoredState × ExtSt × Bool :=
  if !getOk then (stored, s, true)
  else if stored.blacklistedDomains.contains domain then (stored, s, false)
  else if !setOk then (stored, s, true)
  else
    let bl := stored.blacklistedDomains ++ [domain]
    let s' := { s with cachedBlacklistedDomains := bl }
    let s' :=
      if extractDomain activeTabHost = some domain then
        clearOwner { s' with badgeText := "" }
      else s'
    ({ stored with blacklistedDomains := bl }, s', false)

/-- Run of the async `removeFromBlacklist(domain)` handler.  On success the
cache is updated and, when the active tab's extracted domain is the removed
one, `handleTabUpdate` is re-run for that tab (with resolver outcome
`res`). -/
def removeFromBlacklistRun (stored : StoredState) (s : ExtSt) (domain : String)
    (getOk setOk : Bool) (activeTabHost : Option String)
    (res : Option NameData) : StoredState × ExtSt × Bool :=
  if !getOk then (stored, s, true)
  else
    let bl := stored.blacklistedDomains.filter (fun d => d ≠ domain)
    if !setOk then (stored, s, true)
    else
      let s' := { s with cachedBlacklistedDomains := bl }
      let s' :=
        if extractDomain activeTabHost = some domain then
          (handleTabUpdate s' activeTabHost res).1
        else s'
      ({ stored with blacklistedDomains := bl }, s', false)

/-- Run of the async `addToRecentChats(...)` handler (`now` is the
`Date.now()` stamp): in-memory state is never touched. -/
def addToRecentChatsRun (stored : StoredState) (s : ExtSt)
    (domain ethAddress : String) (price : Option String)
    (decimals : Option Nat) (currency : Option String) (now : Nat)
    (getOk setOk : Bool) : StoredState × ExtSt × Bool :=
  if !getOk then (stored, s, true)
  else if !setOk then (stored, s, true)
  else
    ({ stored with
        recentChats :=
          addToRecentChats stored.recentChats domain ethAddress price decimals
            currency now }, s, false)

/-- Run of the async `removeFromRecentChats(domain)` handler. -/
def removeFromRecentChatsRun (stored : StoredState) (s : ExtSt)
    (domain : String) (getOk setOk : Bool) : StoredState × ExtSt × Bool :=
  if !getOk then (stored, s, true)
  else if !setOk then (stored, s, true)
  else
    ({ stored with
        recentChats := removeFromRecentChats stored.recentChats domain },
      s, false)

/-- Dispatch of the four mutation branches of the message listener. -/
def runMutation (req : MutationRequest) (stored : StoredState) (s : ExtSt)
    (getOk setOk : Bool) (activeTabHost : Option String)
    (res : Option NameData) (now : Nat) : StoredState × ExtSt × Bool :=
  match req with
  | .addChat domain ethAddress price decimals currency =>
    addToRecentChatsRun stored s domain ethAddress price decimals currency now
      getOk setOk
  | .removeChat domain => removeFromRecentChatsRun stored s domain getOk setOk
  | .addBlacklist domain =>
    addToBlacklistRun stored s domain getOk setOk activeTabHost
  | .removeBlacklist domain =>
    removeFromBlacklistRun stored s domain getOk setOk activeTabHost res

/-- Resolver outcome for `example.com` used in the concrete scenarios: a
claimed name with one token and no listings. -/
def ndOwner : NameData :=
  { claimedBy := some "eip155:1:0xabc", tokens := [{ listings := [] }] }

/-- The state after `example.com` has been resolved successfully from the
initial state: `currentDomain = example.com`, `ethAddress = 0xabc`, badge
set. -/
def sResolved : ExtSt :=
  (handleTabUpdate initialState (some "example.com") (some ndOwner)).1

/-- The Domain Extractor restated from the spec's words (§4.1): hostname
lowercased, one leading `"www."` stripped, rejected when it contains no
`"."` or is shorter than 3 characters. -/
def specExtractHostname (hn : String) : Option String :=
  let lowered := hn.data.map Char.toLower
  let stripped := if beginsWithWWW lowered then lowered.drop 4 else lowered
  if stripped.contains '.' ∧ 3 ≤ stripped.length then some (String.mk stripped)
  else none

/-- Resolver outcome whose owner identifier has only two colon-separated
segments but which carries a listing. -/
def ndTwoSeg : NameData :=
  { claimedBy := some "eip155:1",
    tokens :=
      [{ listings :=
          [{ price := some "5", decimals := some 18, currency := some "ETH" }] }] }

/-- First tab event of the C3 interleaving: navigation to `a.com` from the
initial state, up to the resolver call. -/
def stepA : ExtSt × Option String :=
  handleTabUpdateStart initialState (some "a.com")

/-- Second tab event of the C3 interleaving: navigation to `b.com` while
`a.com`'s resolution is still in flight. -/
def stepB : ExtSt × Option String :=
  handleTabUpdateStart stepA.1 (some "b.com")

/-- The (late) resolver outcome for `a.com`. -/
def ndA : NameData := { claimedBy := some "eip155:1:0xAAA", tokens := [] }

/-- C10: on startup, any persisted `extensionEnabled` value other than
exactly `false` (including an absent one) initializes monitoring to
enabled; only a stored `false` yields a disabled initial state. -/
theorem initEnabled_only_false_disables :
    ∀ v : Option JsVal, initEnabled v = false ↔ v = some (JsVal.bool false) := by
  intro v
  match v with
  | none => simp [initEnabled]
  | some (.bool true) => simp [initEnabled]
  | some (.bool false) => simp [initEnabled]
  | some (.str s) => simp [initEnabled]
  | some (.num n) => simp [initEnabled]

/-- C7: the Domain Extractor is pure and deterministic; an absent or
unparseable URL yields absent, and otherwise the result is exactly the
spec's normalization — the hostname lowercased with one leading `"www."`
stripped, rejected when it contains no `"."` or is shorter than 3
characters; in particular the hostname `www.Example.com` yields
`example.com`. -/
theorem extractDomain_correct :
    extractDomain none = none ∧
    (∀ hn : String, extractDomain (some hn) = specExtractHostname hn) ∧
    extractDomain (some "www.Example.com") = some "example.com" := by
  refine ⟨rfl, ?_, by decide⟩
  intro hn
  simp only [extractDomain, specExtractHostname]
  generalize (if beginsWithWWW (hn.data.map Char.toLower) then
      (hn.data.map Char.toLower).drop 4
    else hn.data.map Char.toLower) = l
  cases hc : l.contains '.' <;> cases hl : decide (l.length < 3) <;>
    simp_all <;> rw [if_neg (by omega)]

/-- C8 counterexample: for the domain string `www.a.bc`, the extractor
yields `a.bc` for the bare hostname but `www.a.bc` for the hostname with a
`"www."` prefix added, because exactly one leading `"www."` is stripped. -/
theorem extractDomain_www_cex :
    extractDomain (some ("www." ++ "www.a.bc")) ≠
      extractDomain (some "www.a.bc") := by decide

/-- C8 (amended): for every domain string `D` whose lowercased form does
not itself begin with `"www."`, the extractor produces the same result for
hostname `D` and for hostname `"www." ++ D`. -/
theorem extractDomain_www_agrees (D : String)
    (hw : beginsWithWWW (D.data.map Char.toLower) = false) :
    extractDomain (some ("www." ++ D)) = extractDomain (some D) := by
  simp only [extractDomain]
  rw [String.data_append "www." D, List.map_append]
  rw [show ("www.".data.map Char.toLower) = ['w', 'w', 'w', '.'] from by decide]
  rw [show (['w', 'w', 'w', '.'] ++ D.data.map Char.toLower) =
    'w' :: 'w' :: 'w' :: '.' :: D.data.map Char.toLower from rfl]
  rw [show beginsWithWWW ('w' :: 'w' :: 'w' :: '.' :: D.data.map Char.toLower) =
    true from rfl]
  rw [hw]
  rw [show ('w' :: 'w' :: 'w' :: '.' :: D.data.map Char.toLower).drop 4 =
    D.data.map Char.toLower from rfl]
  simp

/-- Witness for the C8 amendment at `D = example.com`. -/
theorem extractDomain_www_agrees_witness :
    extractDomain (some ("www." ++ "example.com")) =
      extractDomain (some "example.com") :=
  extractDomain_www_agrees "example.com" (by decide)

/-- C1 counterexample: from the reachable state in which `example.com` has
resolved to `0xabc`, toggling monitoring off leaves the resolved owner in
memory, so `getStatus` while disabled reports `enabled: false`, the last
domain, and a still-present address — contradicting both the stated
invariant and Scenario C. -/
theorem toggleOff_keeps_owner_cex :
    (toggleExtension sResolved).isExtensionEnabled = false ∧
    (getStatus (toggleExtension sResolved)).enabled = false ∧
    (getStatus (toggleExtension sResolved)).domain = some "example.com" ∧
    (getStatus (toggleExtension sResolved)).ethAddress = some "0xabc" := by
  decide

/-- C1 (amended): toggling monitoring off clears only the active tab's
badge and leaves the resolved owner fields in memory: `getStatus` while
disabled reports `enabled: false`, the last tracked domain, and the last
resolved address/price fields, which may still be present (they are cleared
on re-enable instead). -/
theorem toggleOff_clears_only_badge (s : ExtSt)
    (hen : s.isExtensionEnabled = true) :
    toggleExtension s = { s with isExtensionEnabled := false, badgeText := "" } ∧
    getStatus (toggleExtension s) =
      { enabled := false, domain := s.currentDomain,
        ethAddress := s.ethAddress, price := s.price,
        decimals := s.decimals, currency := s.currency } := by
  simp [toggleExtension, getStatus, hen]

/-- Witness for the C1 amendment at the reachable state `sResolved`. -/
theorem toggleOff_clears_only_badge_witness :
    getStatus (toggleExtension sResolved) =
      { enabled := false, domain := some "example.com",
        ethAddress := some "0xabc", price := none, decimals := none,
        currency := none } := by
  have h := (toggleOff_clears_only_badge sResolved (by decide)).2
  rw [h]; decide

/-- C2 counterexample: with `example.com` resolved (owner `0xabc`, badge
set), a navigation to the fresh domain `b.com` whose resolution returns
NotFound leaves the stale owner fields and the badge untouched instead of
clearing them. -/
theorem notFound_leaves_stale_cex :
    (handleTabUpdate sResolved (some "b.com") none).1.currentDomain =
      some "b.com" ∧
    (handleTabUpdate sResolved (some "b.com") none).1.ethAddress =
      some "0xabc" ∧
    (handleTabUpdate sResolved (some "b.com") none).1.badgeText = "●" := by
  decide

/-- C2 (amended): on a tab event for a new, non-blacklisted domain, a
NotFound resolution makes the handler return early, changing only
`currentDomain` and leaving the owner fields and the badge as they were; a
resolution that throws (a claimed-by-less payload) clears the owner fields
and the badge.  In both cases the failure is swallowed. -/
theorem resolver_failure_behavior (s : ExtSt) (host : Option String)
    (d : String)
    (hen : s.isExtensionEnabled = true)
    (hd : extractDomain host = some d)
    (hne : some d ≠ s.currentDomain)
    (hbl : d ∉ s.cachedBlacklistedDomains) :
    (handleTabUpdate s host none).1 = { s with currentDomain := some d } ∧
    ∀ nd : NameData, nd.claimedBy = none →
      (handleTabUpdate s host (some nd)).1 =
        { s with currentDomain := some d, ethAddress := none, price := none,
                 decimals := none, currency := none, badgeText := "" } := by
  have hstart :
      handleTabUpdateStart s host = ({ s with currentDomain := some d }, some d) := by
    simp [handleTabUpdateStart, hen, hd, hne, hbl]
  constructor
  · simp [handleTabUpdate, hstart, handleTabUpdateFinish]
  · intro nd hcb
    simp [handleTabUpdate, hstart, handleTabUpdateFinish, hcb, clearOwner]

/-- Witness for the C2 amendment: NotFound for `b.com` from `sResolved`
changes only the tracked domain. -/
theorem resolver_failure_behavior_witness :
    (handleTabUpdate sResolved (some "b.com") none).1 =
      { sResolved with currentDomain := some "b.com" } :=
  (resolver_failure_behavior sResolved (some "b.com") "b.com" (by decide)
    (by decide) (by decide) (by decide)).1

/-- C3: the completion of a resolution issued for `a.com` is applied
verbatim after a subsequent navigation to `b.com`: the code keeps no tag of
the issuing domain and overwrites the owner fields of the now-tracked
domain with the stale result. -/
theorem stale_resolution_overwrites :
    stepA.2 = some "a.com" ∧
    stepB.1.currentDomain = some "b.com" ∧
    (handleTabUpdateFinish stepB.1 "a.com" (some ndA)).currentDomain =
      some "b.com" ∧
    (handleTabUpdateFinish stepB.1 "a.com" (some ndA)).ethAddress =
      some "0xAAA" := by decide

/-- C6 counterexample: a resolver payload whose owner identifier has only
the two segments `eip155:1` but which carries a listing yields an absent
address and a cleared badge, yet sets the price fields from the listing —
and the result differs from the NotFound outcome, which leaves the state
untouched. -/
theorem twoSegment_price_set_cex :
    (handleTabUpdate initialState (some "example.com") (some ndTwoSeg)).1.ethAddress =
      none ∧
    (handleTabUpdate initialState (some "example.com") (some ndTwoSeg)).1.badgeText =
      "" ∧
    (handleTabUpdate initialState (some "example.com") (some ndTwoSeg)).1.price =
      some "5" ∧
    (handleTabUpdate initialState (some "example.com") (some ndTwoSeg)).1 ≠
      (handleTabUpdate initialState (some "example.com") none).1 := by decide

/-- C6 (amended): when the resolver returns an owner identifier with no
third colon-separated segment, the handler records an absent address and
clears the badge, but assigns the price fields from the first token's first
listing (absent only when there is none); unlike NotFound, which leaves
every field and the badge unchanged. -/
theorem twoSegment_absent_address (s : ExtSt) (host : Option String)
    (d : String) (nd : NameData) (cb : String)
    (hen : s.isExtensionEnabled = true)
    (hd : extractDomain host = some d)
    (hne : some d ≠ s.currentDomain)
    (hbl : d ∉ s.cachedBlacklistedDomains)
    (hcb : nd.claimedBy = some cb)
    (haddr : (parseCAIP10 cb).address = none) :
    (handleTabUpdate s host (some nd)).1 =
      { s with currentDomain := some d, ethAddress := none,
               price := (extractPriceFromName nd).bind (·.price),
               decimals := (extractPriceFromName nd).bind (·.decimals),
               currency := (extractPriceFromName nd).bind (·.currency),
               badgeText := "" } := by
  have hstart :
      handleTabUpdateStart s host = ({ s with currentDomain := some d }, some d) := by
    simp [handleTabUpdateStart, hen, hd, hne, hbl]
  simp [handleTabUpdate, hstart, handleTabUpdateFinish, hcb, haddr, jsTruthy]

/-- Witness for the C6 amendment at the two-segment payload `ndTwoSeg`. -/
theorem twoSegment_absent_address_witness :
    (handleTabUpdate initialState (some "example.com") (some ndTwoSeg)).1 =
      { initialState with
        currentDomain := some "example.com",
        ethAddress := none,
        price := (extractPriceFromName ndTwoSeg).bind (·.price),
        decimals := (extractPriceFromName ndTwoSeg).bind (·.decimals),
        currency := (extractPriceFromName ndTwoSeg).bind (·.currency),
        badgeText := "" } :=
  twoSegment_absent_address initialState (some "example.com") "example.com"
    ndTwoSeg "eip155:1" (by decide) (by decide) (by decide) (by decide)
    (by decide) (by decide)

/-- C4 counterexample: for a blacklist already containing `example.com`,
adding it is a no-op and removing it deletes it, so membership is not
restored; and a subsequent tab event for a domain equal to the currently
tracked one does not trigger a resolution call even though the domain is
not blacklisted. -/
theorem blacklist_roundtrip_cex :
    "example.com" ∈ (["example.com"] : List String) ∧
    removeFromBlacklist (addToBlacklist ["example.com"] "example.com")
      "example.com" = [] ∧
    (handleTabUpdate sResolved (some "example.com") none).2 = false := by decide

/-- C4 (amended): for every blacklist state *not already containing* `d`,
adding then removing `d` restores the stored list exactly; and a subsequent
tab event for `d` triggers a resolution call provided monitoring is enabled
and `d` differs from the currently tracked domain. -/
theorem blacklist_roundtrip (bl : List String) (d : String) (hnm : d ∉ bl) :
    removeFromBlacklist (addToBlacklist bl d) d = bl ∧
    ∀ (s : ExtSt) (host : Option String) (res : Option NameData),
      s.isExtensionEnabled = true →
      s.cachedBlacklistedDomains = removeFromBlacklist (addToBlacklist bl d) d →
      extractDomain host = some d →
      some d ≠ s.currentDomain →
      (handleTabUpdate s host res).2 = true := by
  have h1 : removeFromBlacklist (addToBlacklist bl d) d = bl := by
    unfold removeFromBlacklist addToBlacklist
    rw [if_neg (fun h => hnm (List.elem_iff.mp h))]
    rw [List.filter_append]
    have h2 : ∀ a ∈ bl, (fun x => decide ¬(x = d)) a = true := by
      intro a ha
      simp only [decide_eq_true_eq]
      intro heq
      exact hnm (heq ▸ ha)
    rw [List.filter_eq_self.mpr h2]
    simp
  refine ⟨h1, ?_⟩
  intro s host res hen hcache hd hne
  have hmem : d ∉ s.cachedBlacklistedDomains := by
    rw [hcache, h1]
    exact hnm
  have hstart :
      handleTabUpdateStart s host = ({ s with currentDomain := some d }, some d) := by
    simp [handleTabUpdateStart, hen, hd, hne, hmem]
  simp [handleTabUpdate, hstart]

/-- Witness for the C4 amendment: round trip on the empty blacklist, then a
tab event for `example.com` from the initial state calls the resolver. -/
theorem blacklist_roundtrip_witness :
    removeFromBlacklist (addToBlacklist [] "example.com") "example.com" = [] ∧
    (handleTabUpdate initialState (some "example.com") none).2 = true := by
  have h := blacklist_roundtrip [] "example.com" (by decide)
  refine ⟨h.1, ?_⟩
  refine h.2 initialState (some "example.com") none (by decide) ?_ (by decide)
    (by decide)
  rw [h.1]
  rfl

/-- C9 counterexample: an `addToBlacklist` request whose storage `set`
fails still gets the response `success: true` — the listener answers before
the storage work settles — so the response does not reject. -/
theorem storage_failure_success_response_cex :
    (mutationResponse (MutationRequest.addBlacklist "example.com")).success =
      true ∧
    (runMutation (MutationRequest.addBlacklist "example.com")
      ⟨["x.com"], []⟩ initialState true false none none 0).2.2 = true := by
  decide

/-- C9 (amended): every mutation request is answered `success: true`
regardless of the storage outcome (the rejection of the async handler is
unobserved by the requester), and whenever a storage operation fails and
the handler's promise rejects, both the persisted collections and the
in-memory state are left exactly as they were. -/
theorem mutation_response_always_success (req : MutationRequest)
    (stored : StoredState) (s : ExtSt) (getOk setOk : Bool)
    (host : Option String) (res : Option NameData) (now : Nat) :
    (mutationResponse req).success = true ∧
    ((runMutation req stored s getOk setOk host res now).2.2 = true →
      (runMutation req stored s getOk setOk host res now).1 = stored ∧
      (runMutation req stored s getOk setOk host res now).2.1 = s) := by
  refine ⟨rfl, ?_⟩
  cases req <;>
    simp only [runMutation, addToRecentChatsRun, removeFromRecentChatsRun,
      addToBlacklistRun, removeFromBlacklistRun] <;>
    split_ifs <;> simp_all

/-- Witness for the C9 amendment at a rejecting `addToBlacklist` run. -/
theorem mutation_response_always_success_witness :
    (runMutation (MutationRequest.addBlacklist "a.bc") ⟨[], []⟩ initialState
      true false none none 0).1 = ⟨[], []⟩ ∧
    (runMutation (MutationRequest.addBlacklist "a.bc") ⟨[], []⟩ initialState
      true false none none 0).2.1 = initialState :=
  (mutation_response_always_success (MutationRequest.addBlacklist "a.bc")
    ⟨[], []⟩ initialState true false none none 0).2 (by decide)


/-- One `addToRecentChats` request (with its `Date.now()` stamp `now`). -/
structure AddChatReq where
  domain : String
  ethAddress : String
  price : Option String
  decimals : Option Nat
  currency : Option String
  now : Nat
deriving DecidableEq, Repr

/-- The entry an `addToRecentChats` call unshifts. -/
def AddChatReq.entry (op : AddChatReq) : RecentChat :=
  { domain := op.domain, ethAddress := op.ethAddress, price := op.price,
    decimals := op.decimals, currency := op.currency, timestamp := op.now }

/-- One `addToRecentChats` call applied to the stored list. -/
def chatStep (l : List RecentChat) (op : AddChatReq) : List RecentChat :=
  addToRecentChats l op.domain op.ethAddress op.price op.decimals op.currency
    op.now

/-- The stored list after a sequence of `addToRecentChats` calls starting
from the empty persisted default. -/
def runAddChats (ops : List AddChatReq) : List RecentChat :=
  ops.foldl chatStep []

/-- Most-recent-first: timestamps never increase along the list. -/
def recentFirst (l : List RecentChat) : Prop :=
  l.Pairwise (fun a b => b.timestamp <= a.timestamp)

lemma chatStep_eq (l : List RecentChat) (op : AddChatReq) :
    chatStep l op =
      (op.entry :: l.filter (fun chat => chat.domain ≠ op.domain)).take 10 := rfl

lemma chatStep_length_le (l : List RecentChat) (op : AddChatReq) :
    (chatStep l op).length <= 10 := by
  rw [chatStep_eq]
  simp [List.length_take]

lemma chatStep_nodup (l : List RecentChat) (op : AddChatReq)
    (h : (l.map (fun c => c.domain)).Nodup) :
    ((chatStep l op).map (fun c => c.domain)).Nodup := by
  rw [chatStep_eq]
  have hsub : ((op.entry :: l.filter (fun chat => chat.domain ≠ op.domain)).take 10).Sublist
      (op.entry :: l.filter (fun chat => chat.domain ≠ op.domain)) :=
    List.take_sublist _ _
  refine List.Nodup.sublist (hsub.map (fun c => c.domain)) ?_
  simp only [List.map_cons, List.nodup_cons]
  constructor
  · intro hmem
    rcases List.mem_map.mp hmem with ⟨c, hc, hdc⟩
    have := List.of_mem_filter hc
    simp only [decide_eq_true_eq] at this
    exact this (by simpa [AddChatReq.entry] using hdc)
  · exact List.Nodup.sublist ((List.filter_sublist l).map (fun c => c.domain)) h

lemma chatStep_bounded (l : List RecentChat) (op : AddChatReq) (t : Nat)
    (hub : ∀ x ∈ l, x.timestamp <= t) (hle : t <= op.now) :
    ∀ x ∈ chatStep l op, x.timestamp <= op.now := by
  intro x hx
  rw [chatStep_eq] at hx
  have hx' := List.take_subset _ _ hx
  rcases List.mem_cons.mp hx' with hx2 | hx2
  · subst hx2
    exact Nat.le_refl _
  · exact Nat.le_trans (hub x (List.mem_of_mem_filter hx2)) hle

lemma chatStep_recentFirst (l : List RecentChat) (op : AddChatReq) (t : Nat)
    (hub : ∀ x ∈ l, x.timestamp <= t) (hle : t <= op.now)
    (h : recentFirst l) : recentFirst (chatStep l op) := by
  rw [chatStep_eq]
  refine List.Pairwise.sublist (List.take_sublist _ _) ?_
  refine List.Pairwise.cons ?_ (List.Pairwise.sublist (List.filter_sublist l) h)
  intro b hb
  exact Nat.le_trans (hub b (List.mem_of_mem_filter hb)) hle


lemma runAddChats_invariant_aux (ops : List AddChatReq) (l : List RecentChat)
    (t : Nat)
    (hub : ∀ x ∈ l, x.timestamp <= t)
    (hord : recentFirst l)
    (hnd : (l.map (fun c => c.domain)).Nodup)
    (hlen : l.length <= 10)
    (hmono : List.Pairwise (fun a b => a <= b) (t :: ops.map (fun op => op.now))) :
    (ops.foldl chatStep l).length <= 10 ∧
    recentFirst (ops.foldl chatStep l) ∧
    ((ops.foldl chatStep l).map (fun c => c.domain)).Nodup := by
  induction ops generalizing l t with
  | nil => exact ⟨hlen, hord, hnd⟩
  | cons op rest ih =>
    simp only [List.map_cons] at hmono
    have hmono' := List.pairwise_cons.mp hmono
    have hto : t <= op.now := hmono'.1 op.now (List.mem_cons_self _ _)
    simp only [List.foldl_cons]
    exact ih (chatStep l op) op.now
      (chatStep_bounded l op t hub hto)
      (chatStep_recentFirst l op t hub hto hord)
      (chatStep_nodup l op hnd)
      (chatStep_length_le l op)
      hmono'.2

lemma chatStep_head (l : List RecentChat) (op : AddChatReq) :
    (chatStep l op).head? = some op.entry := by
  rw [chatStep_eq]
  rfl

lemma chatStep_filter_domain (l : List RecentChat) (op : AddChatReq) :
    (chatStep l op).filter (fun c => c.domain == op.domain) = [op.entry] := by
  rw [chatStep_eq]
  rw [show ((op.entry :: l.filter (fun chat => chat.domain ≠ op.domain)).take 10) =
    op.entry :: (l.filter (fun chat => chat.domain ≠ op.domain)).take 9 from
    List.take_succ_cons]
  rw [List.filter_cons_of_pos (by simp [AddChatReq.entry])]
  rw [List.filter_eq_nil_iff.mpr ?_]
  intro a ha
  have := List.of_mem_filter (List.take_subset _ _ ha)
  simp only [decide_eq_true_eq] at this ⊢
  simpa using this

lemma chatStep_evicts (l : List RecentChat) (op : AddChatReq)
    (hlen : l.length = 10) (hnm : op.domain ∉ l.map (fun c => c.domain)) :
    chatStep l op = op.entry :: l.dropLast := by
  rw [chatStep_eq]
  have hfe : l.filter (fun chat => chat.domain ≠ op.domain) = l := by
    refine List.filter_eq_self.mpr ?_
    intro a ha
    simp only [decide_eq_true_eq]
    intro heq
    exact hnm (List.mem_map.mpr ⟨a, ha, heq⟩)
  rw [hfe, List.take_succ_cons, List.dropLast_eq_take, hlen]

/-- Ten adds with pairwise-distinct domains and increasing stamps. -/
def opsTen : List AddChatReq :=
  (List.range 10).map (fun i =>
    { domain := "d" ++ toString i ++ ".xyz", ethAddress := "0x1",
      price := none, decimals := none, currency := none, now := i })

/-- An eleventh add with a fresh domain. -/
def opFresh : AddChatReq :=
  { domain := "fresh.xyz", ethAddress := "0xF", price := none,
    decimals := none, currency := none, now := 10 }

/-- C5: after any monotonically-stamped sequence of `addToRecentChats`
calls from the empty persisted default, the stored list has at most 10
entries, is most-recent-first, and has at most one entry per domain;
one further call puts its entry (with that call's price fields) at the
front as the sole entry for its domain, and when the list is full and the
domain fresh it evicts exactly the oldest entry. -/
theorem recentChats_correct (ops : List AddChatReq)
    (hmono : List.Pairwise (fun a b => a <= b) (ops.map (fun op => op.now))) :
    (runAddChats ops).length <= 10 ∧
    recentFirst (runAddChats ops) ∧
    ((runAddChats ops).map (fun c => c.domain)).Nodup ∧
    (∀ op : AddChatReq,
      (chatStep (runAddChats ops) op).head? = some op.entry ∧
      (chatStep (runAddChats ops) op).filter (fun c => c.domain == op.domain) =
        [op.entry]) ∧
    (∀ op : AddChatReq, (runAddChats ops).length = 10 →
      op.domain ∉ (runAddChats ops).map (fun c => c.domain) →
      chatStep (runAddChats ops) op = op.entry :: (runAddChats ops).dropLast) := by
  have hinv := runAddChats_invariant_aux ops [] 0 (by simp) (by simp [recentFirst])
    (by simp) (by simp) ?_
  · exact ⟨hinv.1, hinv.2.1, hinv.2.2,
      fun op => ⟨chatStep_head _ op, chatStep_filter_domain _ op⟩,
      fun op hlen hnm => chatStep_evicts _ op hlen hnm⟩
  · refine List.pairwise_cons.mpr ⟨?_, hmono⟩
    intro y _
    exact Nat.zero_le y

/-- Witness for C5: ten distinct adds fill the list to 10 entries, and an
eleventh fresh add evicts exactly the oldest. -/
theorem recentChats_correct_witness :
    (runAddChats opsTen).length <= 10 ∧
    chatStep (runAddChats opsTen) opFresh =
      opFresh.entry :: (runAddChats opsTen).dropLast :=
  ⟨(recentChats_correct opsTen (by decide)).1,
   (recentChats_correct opsTen (by decide)).2.2.2.2 opFresh (by decide)
     (by decide)⟩

end Nomee
